import Mathlib

/-!
A shallow embedding of the response-normalization and field-extraction layer
of `src/app.py` (functions `parse_response_data`, `parse_columns_data`,
`extract_chat_completion_content`, `get_field_value`), together with theorems
settling the specification claims about it.

Python runtime values relevant to this layer are modelled by the inductive
type `PyVal`: `None`, strings, integers, lists, string-keyed dicts (as
association lists in insertion order) and generic objects carrying an
attribute bag (their `__dict__`).  Attribute access, subscripting and
truthiness follow Python semantics on this fragment; the exceptions the code
can raise or catch (`AttributeError`, `IndexError`, `KeyError`, `TypeError`)
are modelled explicitly by `PyExc`, and fallible code returns
`Except PyExc PyVal`.  Python's `str(...)` rendering is modelled by `pyStr`;
for generic objects, whose CPython rendering embeds a memory address, an
address-free placeholder is used (no claim depends on that text).
-/

/-- A Python value as used by the response-normalization layer of
`src/app.py`: `None`, `str`, `int`, `list`, a string-keyed `dict`
(association list, insertion order), or a generic object with an
attribute bag (its `__dict__`). -/
inductive PyVal where
  | none : PyVal
  | str : String → PyVal
  | int : Int → PyVal
  | list : List PyVal → PyVal
  | dict : List (String × PyVal) → PyVal
  | obj : List (String × PyVal) → PyVal

/-- Python exceptions that the embedded code can raise or catch. -/
inductive PyExc where
  | attributeError : PyExc
  | indexError : PyExc
  | keyError : PyExc
  | typeError : PyExc
deriving DecidableEq

mutual

/-- A size measure on `PyVal` used for termination; `obj` is strictly larger
than the `dict` holding the same entries because `parse_response_data`
recurses from an object into its `__dict__`. -/
def PyVal.size : PyVal → Nat
  | .none => 1
  | .str _ => 1
  | .int _ => 1
  | .list vs => 1 + sizeL vs
  | .dict kvs => 1 + sizeKV kvs
  | .obj kvs => 2 + sizeKV kvs

/-- Total size of a list of values. -/
def sizeL : List PyVal → Nat
  | [] => 0
  | v :: vs => PyVal.size v + sizeL vs

/-- Total size of the values of an association list. -/
def sizeKV : List (String × PyVal) → Nat
  | [] => 0
  | (_, v) :: kvs => PyVal.size v + sizeKV kvs

end

/-- First-match lookup in a string-keyed association list; models Python
dict key lookup (`k in d` / `d[k]` / `d.get(k)`), where keys are unique. -/
def lookupStr : List (String × PyVal) → String → Option PyVal
  | [], _ => Option.none
  | (k, v) :: rest, key => if k = key then Option.some v else lookupStr rest key

/-- Python truthiness (`bool(v)`) on the modelled fragment: `None` is falsy,
strings/lists/dicts are truthy iff non-empty, integers iff non-zero, and
generic objects are always truthy. -/
def PyVal.truthy : PyVal → Bool
  | .none => false
  | .str s => !s.isEmpty
  | .int n => n != 0
  | .list vs => !vs.isEmpty
  | .dict kvs => !kvs.isEmpty
  | .obj _ => true

/-- `isinstance(v, str)`. -/
def PyVal.isStr : PyVal → Bool
  | .str _ => true
  | _ => false

/-- `isinstance(v, dict)`. -/
def PyVal.isDict : PyVal → Bool
  | .dict _ => true
  | _ => false

/-- `isinstance(v, list)`. -/
def PyVal.isList : PyVal → Bool
  | .list _ => true
  | _ => false

/-- `v is None`. -/
def PyVal.isNone : PyVal → Bool
  | .none => true
  | _ => false

mutual

/-- Python `repr(v)` on the modelled fragment (single-quoted strings,
bracketed lists, braced dicts); the address-bearing default rendering of a
generic object is abstracted to an address-free placeholder. -/
def pyRepr : PyVal → String
  | .none => "None"
  | .str s => "\x27" ++ s ++ "\x27"
  | .int n => toString n
  | .list vs => "[" ++ pyReprL vs ++ "]"
  | .dict kvs => "\x7b" ++ pyReprKV kvs ++ "\x7d"
  | .obj _ => "<object>"

/-- Comma-separated `repr` of list elements. -/
def pyReprL : List PyVal → String
  | [] => ""
  | [v] => pyRepr v
  | v :: vs => pyRepr v ++ ", " ++ pyReprL vs

/-- Comma-separated `repr` of dict entries. -/
def pyReprKV : List (String × PyVal) → String
  | [] => ""
  | [(k, v)] => "\x27" ++ k ++ "\x27: " ++ pyRepr v
  | (k, v) :: kvs => "\x27" ++ k ++ "\x27: " ++ pyRepr v ++ ", " ++ pyReprKV kvs

end

/-- Python `str(v)`: the string itself for strings, `repr` otherwise. -/
def pyStr : PyVal → String
  | .str s => s
  | v => pyRepr v

theorem PyVal.size_pos (v : PyVal) : 0 < v.size := by
  cases v <;> simp [PyVal.size]

theorem lookupStr_size {kvs : List (String × PyVal)} {k : String} {v : PyVal}
    (h : lookupStr kvs k = Option.some v) : v.size ≤ sizeKV kvs := by
  induction kvs with
  | nil => simp [lookupStr] at h
  | cons p rest ih =>
      obtain ⟨a, b⟩ := p
      by_cases hk : a = k
      · simp [lookupStr, hk] at h
        subst h
        simp [sizeKV]
      · simp [lookupStr, hk] at h
        have := ih h
        simp [sizeKV]
        omega

/-- Python `a or b` (short-circuit on truthiness, restricted to values). -/
def pyOr (a b : PyVal) : PyVal := if a.truthy then a else b

/-- Python `d.get(k)`: the value at `k`, or `None` when absent. -/
def pyDictGet (kvs : List (String × PyVal)) (k : String) : PyVal :=
  (lookupStr kvs k).getD .none

/-- Embedding of `parse_columns_data` (src/app.py lines 213 to 229): for a
dict input, build a result mapping each column name to the extracted text;
for a dict-shaped column value, `col_value.get("text") or
col_value.get("value") or str(col_value)` (Python `or`, i.e. truthiness
fallback); for an object exposing a `text` attribute, that attribute; else a
`value` attribute; else `str(col_value)`.  A non-dict input yields the empty
result. -/
def parse_columns_data (columns : PyVal) : List (String × PyVal) :=
  match columns with
  | .dict kvs =>
      kvs.map (fun p =>
        (p.1,
          match p.2 with
          | .dict inner =>
              pyOr (pyDictGet inner "text")
                (pyOr (pyDictGet inner "value") (.str (pyStr (.dict inner))))
          | .obj attrs =>
              match lookupStr attrs "text" with
              | Option.some t => t
              | Option.none =>
                  match lookupStr attrs "value" with
                  | Option.some w => w
                  | Option.none => .str (pyStr (.obj attrs))
          | v => .str (pyStr v)))
  | _ => []

/-- Embedding of `parse_response_data` (src/app.py lines 171 to 211).
`None` yields `{}`.  A non-empty list is replaced by its first element and
processing continues (so a list-of-list yields `{}`, since the inner list
matches no later branch).  A dict is resolved in priority order: a `"row"`
key recurses into its value; a `"rows"` key holding a non-empty list
recurses into its first element; `"values"`, `"data"`, `"columns"` keys
holding dicts are returned directly; otherwise the dict itself is returned.
An object whose `rows` attribute is a non-empty list takes its first
element: if that exposes a `columns` attribute it goes through
`parse_columns_data`, else it is recursed into; an object with a `columns`
attribute goes through `parse_columns_data`; any remaining object recurses
into its `__dict__`.  Everything else yields `{}`. -/
def parse_response_data : PyVal → List (String × PyVal)
  | .none => []
  | .str _ => []
  | .int _ => []
  | .list [] => []
  | .list (v :: _) => if v.isList then [] else parse_response_data v
  | .dict kvs =>
      match hrow : lookupStr kvs "row" with
      | Option.some r => parse_response_data r
      | Option.none =>
          match hrows : lookupStr kvs "rows" with
          | Option.some (.list (v :: _)) => parse_response_data v
          | _ =>
              match lookupStr kvs "values" with
              | Option.some (.dict m) => m
              | _ =>
                  match lookupStr kvs "data" with
                  | Option.some (.dict m) => m
                  | _ =>
                      match lookupStr kvs "columns" with
                      | Option.some (.dict m) => m
                      | _ => kvs
  | .obj attrs =>
      match horows : lookupStr attrs "rows" with
      | Option.some (.list (first :: _)) =>
          match first with
          | .obj fattrs =>
              (match lookupStr fattrs "columns" with
               | Option.some cols => parse_columns_data cols
               | Option.none => parse_response_data (.obj fattrs))
          | f => parse_response_data f
      | _ =>
          match lookupStr attrs "columns" with
          | Option.some cols => parse_columns_data cols
          | Option.none => parse_response_data (.dict attrs)
termination_by v => v.size
decreasing_by
  all_goals simp [PyVal.size, sizeL, sizeKV]
  all_goals try omega
  all_goals first
    | (have h1 := lookupStr_size hrow
       omega)
    | (have h1 := lookupStr_size hrows
       simp [PyVal.size, sizeL, sizeKV] at h1
       omega)
    | (have h1 := lookupStr_size horows
       simp [PyVal.size, sizeL, sizeKV] at h1
       omega)

/-- Python attribute access `v.name` on the modelled fragment: defined for
generic objects via their attribute bag; every other access raises
`AttributeError` (no built-in type in scope exposes the attribute names this
code probes for). -/
def pyGetAttr (v : PyVal) (name : String) : Except PyExc PyVal :=
  match v with
  | .obj attrs =>
      match lookupStr attrs name with
      | Option.some x => Except.ok x
      | Option.none => Except.error .attributeError
  | _ => Except.error .attributeError

/-- Python subscript `v[0]`: first element of a list (IndexError when
empty), first character of a string (IndexError when empty), KeyError on a
string-keyed dict, TypeError on anything unsubscriptable. -/
def pyGetItem0 : PyVal → Except PyExc PyVal
  | .list [] => Except.error .indexError
  | .list (v :: _) => Except.ok v
  | .str s => if s.isEmpty then Except.error .indexError else Except.ok (.str (s.take 1))
  | .dict _ => Except.error .keyError
  | _ => Except.error .typeError

/-- The exceptions caught by the first `try` block of
`extract_chat_completion_content`: `except (AttributeError, IndexError)`. -/
def caughtAI : PyExc → Bool
  | .attributeError => true
  | .indexError => true
  | _ => false

/-- First branch of `extract_chat_completion_content` (src/app.py lines 234
to 238): when `value` has a truthy `choices` attribute, evaluate
`value.choices[0].message.content` under a handler catching only
`AttributeError` and `IndexError`.  Returns `Option.none` when the branch
falls through (guard false or caught exception), `Option.some` with the
returned value or an uncaught exception otherwise. -/
def tryChoicesAttr (value : PyVal) : Option (Except PyExc PyVal) :=
  match value with
  | .obj attrs =>
      match lookupStr attrs "choices" with
      | Option.some c =>
          if c.truthy then
            match pyGetItem0 c with
            | Except.error e =>
                if caughtAI e then Option.none else Option.some (Except.error e)
            | Except.ok first =>
                match pyGetAttr first "message" with
                | Except.error e =>
                    if caughtAI e then Option.none else Option.some (Except.error e)
                | Except.ok msg =>
                    match pyGetAttr msg "content" with
                    | Except.error e =>
                        if caughtAI e then Option.none else Option.some (Except.error e)
                    | Except.ok content => Option.some (Except.ok content)
          else Option.none
      | Option.none => Option.none
  | _ => Option.none

/-- Second branch of `extract_chat_completion_content` (src/app.py lines 241
to 251): when `value` is a dict containing `"choices"` holding a non-empty
list, extract the first choice's message content (through dict keys or
attributes) under a handler catching `AttributeError`, `IndexError` and
`KeyError`.  One error path escapes that handler: when the first choice is a
dict whose `"message"` value is a generic object exposing a `get` attribute,
`first_choice["message"].get("content")` finds the attribute — a data value
in this model, hence not callable — and calling it raises a `TypeError` the
handler does not absorb.  Returns `Option.none` when the branch falls
through (guard false or caught exception), `Option.some` with the returned
value or that uncaught exception otherwise. -/
def tryChoicesDict (value : PyVal) : Option (Except PyExc PyVal) :=
  match value with
  | .dict kvs =>
      match lookupStr kvs "choices" with
      | Option.some (.list (first :: _)) =>
          match first with
          | .dict fkvs =>
              (match lookupStr fkvs "message" with
               | Option.some (.dict mkvs) =>
                   Option.some (Except.ok ((lookupStr mkvs "content").getD .none))
               | Option.some (.obj mattrs) =>
                   (match lookupStr mattrs "get" with
                    | Option.some _ => Option.some (Except.error .typeError)
                    | Option.none => Option.none)
               | _ => Option.none)
          | .obj fattrs =>
              (match lookupStr fattrs "message" with
               | Option.some (.obj mattrs) =>
                   (match lookupStr mattrs "content" with
                    | Option.some c => Option.some (Except.ok c)
                    | Option.none => Option.none)
               | _ => Option.none)
          | _ => Option.none
      | _ => Option.none
  | _ => Option.none

/-- Embedding of `extract_chat_completion_content` (src/app.py lines 231 to
258).  Tries the object-shaped chat-completion branch (which can raise an
uncaught `TypeError`/`KeyError` when the truthy `choices` attribute is not
subscriptable by 0), then the dict-shaped branch (which can raise an
uncaught `TypeError` on the message-with-`get`-attribute shape), then: a
string is returned unchanged when non-empty and as `None` when empty,
`None` stays `None`, and anything else is rendered with `str(...)`. -/
def extract_chat_completion_content (value : PyVal) : Except PyExc PyVal :=
  match tryChoicesAttr value with
  | Option.some r => r
  | Option.none =>
      match tryChoicesDict value with
      | Option.some r => r
      | Option.none =>
          match value with
          | .str s => Except.ok (if s.isEmpty then PyVal.none else .str s)
          | .none => Except.ok PyVal.none
          | v => Except.ok (.str (pyStr v))

/-- The `extracted if extracted else default` idiom of `get_field_value`:
return the extracted value when truthy, else the default; an exception from
the extraction propagates. -/
def extractOr (v d : PyVal) : Except PyExc PyVal :=
  match extract_chat_completion_content v with
  | Except.ok e => Except.ok (if e.truthy then e else d)
  | Except.error ex => Except.error ex

/-- ASCII lowercase of one character, as in `Char.toLower` and in Python
`str.lower` restricted to ASCII. -/
def lowerChar (c : Char) : Char :=
  if 'A' ≤ c ∧ c ≤ 'Z' then Char.ofNat (c.toNat + 32) else c

/-- ASCII uppercase of one character. -/
def upperChar (c : Char) : Char :=
  if 'a' ≤ c ∧ c ≤ 'z' then Char.ofNat (c.toNat - 32) else c

/-- Python `s.lower()` (ASCII case mapping). -/
def strLower (s : String) : String := ⟨s.data.map lowerChar⟩

/-- Python `s.upper()` (ASCII case mapping). -/
def strUpper (s : String) : String := ⟨s.data.map upperChar⟩

/-- Replace one character by another throughout; models Python
`s.replace(a, b)` for the single-character patterns used here. -/
def replChar (a b c : Char) : Char := if c = a then b else c

/-- Python `s.replace(a, b)` with single-character `a` and `b`. -/
def strReplaceChar (s : String) (a b : Char) : String :=
  ⟨s.data.map (replChar a b)⟩

/-- The alternative field names built by `get_field_value` (src/app.py lines
272 to 277): lowercase, uppercase, underscores to spaces, spaces to
underscores. -/
def altNames (fieldName : String) : List String :=
  [strLower fieldName, strUpper fieldName,
   strReplaceChar fieldName '_' ' ', strReplaceChar fieldName ' ' '_']

/-- One step of the fuzzy-lookup comparison: `key.lower() in
[name.lower() for name in alternative_names]`. -/
def altMatch (fieldName key : String) : Bool :=
  ((altNames fieldName).map strLower).contains (strLower key)

/-- The fuzzy-lookup loop of `get_field_value` (src/app.py lines 279 to
282): the value of the first entry whose key matches an alternative name
case-insensitively. -/
def findFuzzy (kvs : List (String × PyVal)) (fieldName : String) : Option PyVal :=
  match kvs with
  | [] => Option.none
  | (k, v) :: rest =>
      if altMatch fieldName k then Option.some v else findFuzzy rest fieldName

mutual

/-- Embedding of `get_field_value` (src/app.py lines 260 to 291).  A
non-dict input returns the default at once.  Otherwise: direct key lookup,
then fuzzy lookup, both running the hit through
`extract_chat_completion_content` and falling back to the default when the
extraction is falsy; then recursive descent into dict-valued entries via
`gfvRec`; finally the default. -/
def get_field_value (data : PyVal) (fieldName : String) (d : PyVal) :
    Except PyExc PyVal :=
  match data with
  | .dict kvs =>
      match lookupStr kvs fieldName with
      | Option.some v => extractOr v d
      | Option.none =>
          match findFuzzy kvs fieldName with
          | Option.some v => extractOr v d
          | Option.none => gfvRec kvs fieldName d
  | _ => Except.ok d
termination_by 2 * data.size
decreasing_by
  simp [PyVal.size]
  omega

/-- The recursive-descent loop of `get_field_value` (src/app.py lines 285 to
289): for each dict-valued entry in order, recurse with default `None`; the
first result that is not `None` is returned; an exception propagates. -/
def gfvRec (kvs : List (String × PyVal)) (fieldName : String) (d : PyVal) :
    Except PyExc PyVal :=
  match kvs with
  | [] => Except.ok d
  | (_, v) :: rest =>
      match v with
      | .dict inner =>
          (match get_field_value (.dict inner) fieldName .none with
           | Except.error e => Except.error e
           | Except.ok r => if r.isNone then gfvRec rest fieldName d else Except.ok r)
      | _ => gfvRec rest fieldName d
termination_by 2 * sizeKV kvs + 1
decreasing_by
  all_goals simp [PyVal.size, sizeKV]
  all_goals try omega
  all_goals (rename_i w
             have h1 := PyVal.size_pos w
             omega)

end

/-- Whether an optional value holds a non-empty list: the guard
`isinstance(response["rows"], list) and response["rows"]` applied to a
dict-lookup result. -/
def nonEmptyListOpt : Option PyVal → Bool
  | Option.some (.list (_ :: _)) => true
  | _ => false

/-- Whether an optional value holds a dict, and its entries: the guard
`isinstance(response[k], dict)` applied to a dict-lookup result. -/
def dictOpt : Option PyVal → Option (List (String × PyVal))
  | Option.some (.dict m) => Option.some m
  | _ => Option.none

/-- The per-column selection rule as the spec words it, for comparison with
`parse_columns_data`: a mapping-shaped value prefers a truthy `"text"`
entry, then a truthy `"value"` entry, then a string rendering of the whole
value; an object uses its `text` attribute, else its `value` attribute,
else a string rendering; anything else is string-rendered. -/
def spec_columnValue (v : PyVal) : PyVal :=
  match v with
  | .dict inner =>
      if (pyDictGet inner "text").truthy then pyDictGet inner "text"
      else if (pyDictGet inner "value").truthy then pyDictGet inner "value"
      else .str (pyStr v)
  | .obj attrs =>
      (match lookupStr attrs "text" with
       | Option.some t => t
       | Option.none =>
           match lookupStr attrs "value" with
           | Option.some w => w
           | Option.none => .str (pyStr v))
  | _ => .str (pyStr v)

/-- A lookup result whose payload, when truthy, is a string (so the `or`
chain of `parse_columns_data` can only select a string from it). -/
def optStrOk : Option PyVal → Bool
  | Option.some v => !v.truthy || v.isStr
  | Option.none => true

/-- Sufficient condition on one column value for `parse_columns_data` to
produce a string for it: dict-shaped values may only carry string (or
falsy) `"text"`/`"value"` entries, object-shaped values only string `text`
or `value` attributes. -/
def textValueStr : PyVal → Bool
  | .dict inner =>
      optStrOk (lookupStr inner "text") && optStrOk (lookupStr inner "value")
  | .obj attrs =>
      (match lookupStr attrs "text" with
       | Option.some t => t.isStr
       | Option.none =>
           match lookupStr attrs "value" with
           | Option.some w => w.isStr
           | Option.none => true)
  | _ => true

/-- The dict branch of `extract_chat_completion_content` cannot hit its one
uncaught error path on entries of this shape: when the `"choices"` key holds
a non-empty list whose first element is a dict, that dict does not carry a
`"message"` value that is a generic object exposing a `get` attribute. -/
def dictChoicesOk (kvs : List (String × PyVal)) : Bool :=
  match lookupStr kvs "choices" with
  | Option.some (.list (.dict fkvs :: _)) =>
      (match lookupStr fkvs "message" with
       | Option.some (.obj mattrs) => (lookupStr mattrs "get").isNone
       | _ => true)
  | _ => true

mutual

/-- No value reachable inside carries one of the two shapes on which
`extract_chat_completion_content` raises an uncaught exception: no object
has a `choices` attribute that is truthy yet neither a list nor a string,
and no dict has the message-with-`get`-attribute shape excluded by
`dictChoicesOk`; on such values both extraction branches can only fall
through or succeed. -/
def choicesSafe : PyVal → Bool
  | .obj attrs =>
      (match lookupStr attrs "choices" with
       | Option.some c => !c.truthy || c.isList || c.isStr
       | Option.none => true) && choicesSafeKV attrs
  | .dict kvs => dictChoicesOk kvs && choicesSafeKV kvs
  | .list vs => choicesSafeL vs
  | _ => true

/-- `choicesSafe` over a list of values. -/
def choicesSafeL : List PyVal → Bool
  | [] => true
  | v :: vs => choicesSafe v && choicesSafeL vs

/-- `choicesSafe` over the values of an association list. -/
def choicesSafeKV : List (String × PyVal) → Bool
  | [] => true
  | (_, v) :: kvs => choicesSafe v && choicesSafeKV kvs

end

theorem PyVal.isNone_iff (v : PyVal) : v.isNone = true ↔ v = PyVal.none := by
  cases v <;> simp [PyVal.isNone]

theorem string_isEmpty_false {s : String} (h : s ≠ "") : s.isEmpty = false := by
  cases hs : s.isEmpty
  · rfl
  · exact absurd ((String.isEmpty_iff s).mp hs) h

/-- C3: `parse_response_data` is total by construction (it is a plain Lean
function into row mappings; every Python access it performs is guarded, so
no exception branch exists to model), and the degenerate shapes `None`, an
empty list, an empty dict and an attribute-less object all normalize to the
empty mapping. -/
theorem claim_C3 :
    (∀ v : PyVal, ∃ kvs : List (String × PyVal), parse_response_data v = kvs)
    ∧ parse_response_data PyVal.none = []
    ∧ parse_response_data (.list []) = []
    ∧ parse_response_data (.dict []) = []
    ∧ parse_response_data (.obj []) = [] := by
  refine ⟨fun v => ⟨parse_response_data v, rfl⟩, ?_, ?_, ?_, ?_⟩
  · simp [parse_response_data]
  · simp [parse_response_data]
  · simp [parse_response_data, lookupStr]
  · simp [parse_response_data, lookupStr]

/-- C10: `get_field_value` returns the supplied default at once whenever its
first argument is not a dict. -/
theorem claim_C10 (data : PyVal) (fieldName : String) (d : PyVal)
    (h : data.isDict = false) :
    get_field_value data fieldName d = Except.ok d := by
  cases data <;> simp [get_field_value] <;> simp [PyVal.isDict] at h

/-- C10 witness: a `None` first argument yields the default. -/
theorem claim_C10_wit :
    get_field_value PyVal.none "summary" (.str "d") = Except.ok (.str "d") :=
  claim_C10 PyVal.none "summary" (.str "d") (by rfl)

/-- C9: `extract_chat_completion_content` returns a non-empty string
unchanged, maps `None` to `None`, and renders every other value matching no
chat rule with `str(...)`: integers, lists, dicts without a `"choices"`
key, and objects without a `choices` attribute. -/
theorem claim_C9 :
    (∀ s : String, s ≠ "" → extract_chat_completion_content (.str s) = Except.ok (.str s))
    ∧ extract_chat_completion_content PyVal.none = Except.ok PyVal.none
    ∧ (∀ n : Int, extract_chat_completion_content (.int n) = Except.ok (.str (pyStr (.int n))))
    ∧ (∀ vs : List PyVal,
        extract_chat_completion_content (.list vs) = Except.ok (.str (pyStr (.list vs))))
    ∧ (∀ kvs, lookupStr kvs "choices" = Option.none →
        extract_chat_completion_content (.dict kvs) = Except.ok (.str (pyStr (.dict kvs))))
    ∧ (∀ attrs, lookupStr attrs "choices" = Option.none →
        extract_chat_completion_content (.obj attrs) = Except.ok (.str (pyStr (.obj attrs)))) := by
  refine ⟨?_, ?_, ?_, ?_, ?_, ?_⟩
  · intro s hs
    simp [extract_chat_completion_content, tryChoicesAttr, tryChoicesDict,
      string_isEmpty_false hs]
  · simp [extract_chat_completion_content, tryChoicesAttr, tryChoicesDict]
  · intro n
    simp [extract_chat_completion_content, tryChoicesAttr, tryChoicesDict]
  · intro vs
    simp [extract_chat_completion_content, tryChoicesAttr, tryChoicesDict]
  · intro kvs h
    simp [extract_chat_completion_content, tryChoicesAttr, tryChoicesDict, h]
  · intro attrs h
    simp [extract_chat_completion_content, tryChoicesAttr, tryChoicesDict, h]

/-- C9 witness: instantiating the string, dict and object parts at concrete
inputs. -/
theorem claim_C9_wit :
    extract_chat_completion_content (.str "hello") = Except.ok (.str "hello")
    ∧ extract_chat_completion_content (.dict [("a", .str "b")])
        = Except.ok (.str (pyStr (.dict [("a", .str "b")])))
    ∧ extract_chat_completion_content (.obj [("a", .str "b")])
        = Except.ok (.str (pyStr (.obj [("a", .str "b")]))) :=
  ⟨claim_C9.1 "hello" (by decide),
   claim_C9.2.2.2.2.1 [("a", .str "b")] (by rfl),
   claim_C9.2.2.2.2.2 [("a", .str "b")] (by rfl)⟩

/-- C1 counterexample: on the spec's end-to-end input, `parse_response_data`
does not flatten the inner columns mapping (the dict branch returns the
`"columns"` dict directly, without `parse_columns_data`), so the normalized
row maps `"summary"` to the dict `\x7b"text": "Evacuate now"\x7d`, not to the
string, and `get_field_value` then yields the `str(...)` rendering of that
dict rather than `"Evacuate now"`. -/
theorem claim_C1_cex :
    parse_response_data
        (.dict [("rows", .list [.dict [("columns",
          .dict [("summary", .dict [("text", .str "Evacuate now")])])]])])
      ≠ [("summary", PyVal.str "Evacuate now")]
    ∧ get_field_value
        (.dict (parse_response_data
          (.dict [("rows", .list [.dict [("columns",
            .dict [("summary", .dict [("text", .str "Evacuate now")])])]])])))
        "summary" (.str "")
      ≠ Except.ok (.str "Evacuate now") := by
  have h : parse_response_data
      (.dict [("rows", .list [.dict [("columns",
        .dict [("summary", .dict [("text", .str "Evacuate now")])])]])])
      = [("summary", .dict [("text", .str "Evacuate now")])] := by
    simp [parse_response_data, lookupStr]
  rw [h]
  constructor
  · simp
  · have h2 : get_field_value (.dict [("summary", .dict [("text", .str "Evacuate now")])])
        "summary" (.str "")
        = Except.ok (.str "\x7b\x27text\x27: \x27Evacuate now\x27\x7d") := by
      simp +decide [get_field_value, lookupStr, extractOr, extract_chat_completion_content,
        tryChoicesAttr, tryChoicesDict, pyStr, pyRepr, pyReprKV, PyVal.truthy]
    rw [h2]
    simp

/-- C1 (amended): on the end-to-end input, `parse_response_data` returns the
columns mapping itself, `\x7b"summary": \x7b"text": "Evacuate now"\x7d\x7d`,
and `get_field_value` on that row with field `"summary"` and default `""`
returns the string rendering of the inner dict,
`"\x7b'text': 'Evacuate now'\x7d"`. -/
theorem claim_C1 :
    parse_response_data
        (.dict [("rows", .list [.dict [("columns",
          .dict [("summary", .dict [("text", .str "Evacuate now")])])]])])
      = [("summary", .dict [("text", .str "Evacuate now")])]
    ∧ get_field_value
        (.dict (parse_response_data
          (.dict [("rows", .list [.dict [("columns",
            .dict [("summary", .dict [("text", .str "Evacuate now")])])]])])))
        "summary" (.str "")
      = Except.ok (.str "\x7b\x27text\x27: \x27Evacuate now\x27\x7d") := by
  have h : parse_response_data
      (.dict [("rows", .list [.dict [("columns",
        .dict [("summary", .dict [("text", .str "Evacuate now")])])]])])
      = [("summary", .dict [("text", .str "Evacuate now")])] := by
    simp [parse_response_data, lookupStr]
  refine ⟨h, ?_⟩
  rw [h]
  simp +decide [get_field_value, lookupStr, extractOr, extract_chat_completion_content,
    tryChoicesAttr, tryChoicesDict, pyStr, pyRepr, pyReprKV, PyVal.truthy]

/-- C2 counterexample: a column whose dict value carries a truthy non-string
`"text"` entry is passed through unchanged, so the returned mapping is not
all string-typed. -/
theorem claim_C2_cex :
    parse_columns_data (.dict [("c", .dict [("text", .int 5)])]) = [("c", .int 5)]
    ∧ ((parse_columns_data (.dict [("c", .dict [("text", .int 5)])])).all
        fun p => p.2.isStr) = false := by
  constructor
  · simp +decide [parse_columns_data, pyOr, pyDictGet, lookupStr, PyVal.truthy]
  · simp +decide [parse_columns_data, pyOr, pyDictGet, lookupStr, PyVal.truthy, PyVal.isStr]

theorem parse_columns_eq_spec (kvs : List (String × PyVal)) :
    parse_columns_data (.dict kvs) = kvs.map fun p => (p.1, spec_columnValue p.2) := by
  simp only [parse_columns_data]
  apply List.map_congr_left
  intro p _
  cases hv : p.2 <;> simp [spec_columnValue, pyOr, pyDictGet]

theorem optStrOk_sel {x : Option PyVal} (h : optStrOk x = true) (f : PyVal)
    (hf : f.isStr = true) :
    (if (x.getD .none).truthy then x.getD .none else f).isStr = true := by
  cases x with
  | none => simp [PyVal.truthy, hf]
  | some w =>
      simp only [optStrOk, Bool.or_eq_true, Bool.not_eq_true'] at h
      simp only [Option.getD]
      cases hw : w.truthy
      · simp [hw, hf]
      · rcases h with h | h
        · rw [h] at hw
          cases hw
        · simp [hw, h]

theorem spec_columnValue_isStr {v : PyVal} (h : textValueStr v = true) :
    (spec_columnValue v).isStr = true := by
  cases v with
  | dict inner =>
      simp only [textValueStr, Bool.and_eq_true] at h
      obtain ⟨h1, h2⟩ := h
      simp only [spec_columnValue, pyDictGet]
      exact optStrOk_sel h1 _ (optStrOk_sel h2 _ (by simp [PyVal.isStr]))
  | obj attrs =>
      simp only [spec_columnValue]
      cases ht : lookupStr attrs "text" with
      | some t =>
          simp [textValueStr, ht] at h
          simp [h]
      | none =>
          cases hw : lookupStr attrs "value" with
          | some w =>
              simp [textValueStr, ht, hw] at h
              simp [h]
          | none => simp [PyVal.isStr]
  | none => simp [spec_columnValue, PyVal.isStr]
  | str s => simp [spec_columnValue, PyVal.isStr]
  | int n => simp [spec_columnValue, PyVal.isStr]
  | list vs => simp [spec_columnValue, PyVal.isStr]

/-- C2 (amended): `parse_columns_data` maps every column through the
text-then-value-then-string-rendering rule (`spec_columnValue`, worded from
the spec, with "prefer" read as Python truthiness), and every entry of the
result is string-typed provided each column's `"text"`/`"value"` payloads
are strings whenever present and truthy (the counterexample shows a truthy
non-string `"text"` payload is passed through unchanged). -/
theorem claim_C2 :
    (∀ kvs : List (String × PyVal),
        parse_columns_data (.dict kvs) = kvs.map fun p => (p.1, spec_columnValue p.2))
    ∧ (∀ kvs : List (String × PyVal),
        (kvs.all fun p => textValueStr p.2) = true →
        ((parse_columns_data (.dict kvs)).all fun p => p.2.isStr) = true) := by
  refine ⟨parse_columns_eq_spec, ?_⟩
  intro kvs h
  rw [parse_columns_eq_spec]
  rw [List.all_map]
  rw [List.all_eq_true] at h ⊢
  intro p hp
  exact spec_columnValue_isStr (h p hp)

/-- C2 witness: on a well-behaved columns mapping, with a truthy string
text, a falsy text falling back to a string value, and a plain value
rendered with `str(...)`, all entries come out string-typed in the order
given by the selection rule. -/
theorem claim_C2_wit :
    ((parse_columns_data (.dict
        [("a", .dict [("text", .str "x")]),
         ("b", .dict [("text", .str ""), ("value", .str "y")]),
         ("c", .int 7)])).all fun p => p.2.isStr) = true :=
  claim_C2.2
    [("a", .dict [("text", .str "x")]),
     ("b", .dict [("text", .str ""), ("value", .str "y")]),
     ("c", .int 7)]
    (by simp +decide [textValueStr, optStrOk, lookupStr, PyVal.truthy, PyVal.isStr])

/-- C8 counterexample: an object whose `choices` attribute is the truthy
integer `1` makes `value.choices[0]` raise a `TypeError`, which the first
branch's handler (catching only `AttributeError` and `IndexError`) does not
absorb: the wrong-type case raises instead of falling through. -/
theorem claim_C8_cex :
    extract_chat_completion_content (.obj [("choices", .int 1)])
      = Except.error .typeError := by
  simp +decide [extract_chat_completion_content, tryChoicesAttr, lookupStr,
    PyVal.truthy, pyGetItem0, caughtAI]

theorem tryChoicesDict_safe {kvs : List (String × PyVal)}
    (h : dictChoicesOk kvs = true) :
    tryChoicesDict (.dict kvs) = Option.none
    ∨ ∃ r, tryChoicesDict (.dict kvs) = Option.some (Except.ok r) := by
  cases hc : lookupStr kvs "choices" with
  | none =>
      left
      simp [tryChoicesDict, hc]
  | some c =>
      cases c with
      | list ls =>
          cases ls with
          | nil =>
              left
              simp [tryChoicesDict, hc]
          | cons first rest =>
              cases first with
              | dict fkvs =>
                  cases hm : lookupStr fkvs "message" with
                  | none =>
                      left
                      simp [tryChoicesDict, hc, hm]
                  | some m =>
                      cases m with
                      | dict mkvs =>
                          right
                          exact ⟨(lookupStr mkvs "content").getD .none,
                            by simp [tryChoicesDict, hc, hm]⟩
                      | obj mattrs =>
                          cases hg : lookupStr mattrs "get" with
                          | none =>
                              left
                              simp [tryChoicesDict, hc, hm, hg]
                          | some g =>
                              exfalso
                              simp [dictChoicesOk, hc, hm, hg] at h
                      | none =>
                          left
                          simp [tryChoicesDict, hc, hm]
                      | str s =>
                          left
                          simp [tryChoicesDict, hc, hm]
                      | int n =>
                          left
                          simp [tryChoicesDict, hc, hm]
                      | list ws =>
                          left
                          simp [tryChoicesDict, hc, hm]
              | obj fattrs =>
                  cases hm : lookupStr fattrs "message" with
                  | none =>
                      left
                      simp [tryChoicesDict, hc, hm]
                  | some m =>
                      cases m with
                      | obj mattrs =>
                          cases hg : lookupStr mattrs "content" with
                          | none =>
                              left
                              simp [tryChoicesDict, hc, hm, hg]
                          | some ct =>
                              right
                              exact ⟨ct, by simp [tryChoicesDict, hc, hm, hg]⟩
                      | none =>
                          left
                          simp [tryChoicesDict, hc, hm]
                      | str s =>
                          left
                          simp [tryChoicesDict, hc, hm]
                      | int n =>
                          left
                          simp [tryChoicesDict, hc, hm]
                      | list ws =>
                          left
                          simp [tryChoicesDict, hc, hm]
                      | dict mk2 =>
                          left
                          simp [tryChoicesDict, hc, hm]
              | none =>
                  left
                  simp [tryChoicesDict, hc]
              | str s =>
                  left
                  simp [tryChoicesDict, hc]
              | int n =>
                  left
                  simp [tryChoicesDict, hc]
              | list ws =>
                  left
                  simp [tryChoicesDict, hc]
      | none =>
          left
          simp [tryChoicesDict, hc]
      | str s =>
          left
          simp [tryChoicesDict, hc]
      | int n =>
          left
          simp [tryChoicesDict, hc]
      | dict d2 =>
          left
          simp [tryChoicesDict, hc]
      | obj o2 =>
          left
          simp [tryChoicesDict, hc]

/-- C8 (amended): chat-completion-shaped values are recognized — a mapping
with `choices[0].message.content` nested dicts yields the content, and so
does an object chain `choices[0].message.content` through attributes —
structurally invalid mapping shapes fail soft (an empty `choices` list
falls through to string rendering, and any mapping satisfying
`dictChoicesOk` never raises), but two wrong-type shapes raise instead of
falling through: an object whose truthy `choices` attribute is neither a
list nor a string (see the counterexample), and a mapping whose first
choice carries a `"message"` object exposing a non-callable `get`
attribute, on which `first_choice["message"].get("content")` raises an
uncaught `TypeError`. -/
theorem claim_C8 :
    (∀ kvs : List (String × PyVal), dictChoicesOk kvs = true →
        ∃ r, extract_chat_completion_content (.dict kvs) = Except.ok r)
    ∧ extract_chat_completion_content
        (.dict [("choices", .list [.dict [("message", .dict [("content", .str "ok")])]])])
        = Except.ok (.str "ok")
    ∧ (∀ (content : PyVal) (rest : List PyVal),
        extract_chat_completion_content
          (.obj [("choices",
            .list (.obj [("message", .obj [("content", content)])] :: rest))])
          = Except.ok content)
    ∧ extract_chat_completion_content (.dict [("choices", .list [])])
        = Except.ok (.str "\x7b\x27choices\x27: []\x7d")
    ∧ extract_chat_completion_content
        (.dict [("choices", .list [.dict [("message", .obj [("get", .int 1)])]])])
        = Except.error .typeError := by
  refine ⟨?_, ?_, ?_, ?_, ?_⟩
  · intro kvs h
    have hattr : tryChoicesAttr (.dict kvs) = Option.none := by rfl
    rcases tryChoicesDict_safe h with hd | ⟨w, hd⟩
    · exact ⟨.str (pyStr (.dict kvs)),
        by simp [extract_chat_completion_content, hattr, hd]⟩
    · exact ⟨w, by simp [extract_chat_completion_content, hattr, hd]⟩
  · simp +decide [extract_chat_completion_content, tryChoicesAttr, tryChoicesDict, lookupStr]
  · intro content rest
    simp +decide [extract_chat_completion_content, tryChoicesAttr, lookupStr,
      PyVal.truthy, pyGetItem0, pyGetAttr, caughtAI]
  · simp +decide [extract_chat_completion_content, tryChoicesAttr, tryChoicesDict,
      lookupStr, pyStr, pyRepr, pyReprKV, pyReprL]
  · simp +decide [extract_chat_completion_content, tryChoicesAttr, tryChoicesDict, lookupStr]

/-- C8 witness: a mapping with no chat shape satisfies `dictChoicesOk` and
extraction returns normally. -/
theorem claim_C8_wit :
    ∃ r, extract_chat_completion_content (.dict [("a", .str "b")]) = Except.ok r :=
  claim_C8.1 [("a", .str "b")] (by rfl)

/-- C4: the dict branch of `parse_response_data` resolves keys in the fixed
priority order: a `"row"` key always wins (in particular over a
simultaneously present `"rows"` key) and is recursed into; otherwise a
`"rows"` key holding a non-empty list recurses into its first element;
otherwise `"values"`, `"data"`, `"columns"` keys holding dicts are returned
directly, in that order; otherwise the mapping itself is returned. -/
theorem claim_C4 :
    (∀ kvs r, lookupStr kvs "row" = Option.some r →
        parse_response_data (.dict kvs) = parse_response_data r)
    ∧ (∀ kvs v vs, lookupStr kvs "row" = Option.none →
        lookupStr kvs "rows" = Option.some (.list (v :: vs)) →
        parse_response_data (.dict kvs) = parse_response_data v)
    ∧ (∀ kvs m, lookupStr kvs "row" = Option.none →
        nonEmptyListOpt (lookupStr kvs "rows") = false →
        lookupStr kvs "values" = Option.some (.dict m) →
        parse_response_data (.dict kvs) = m)
    ∧ (∀ kvs m, lookupStr kvs "row" = Option.none →
        nonEmptyListOpt (lookupStr kvs "rows") = false →
        dictOpt (lookupStr kvs "values") = Option.none →
        lookupStr kvs "data" = Option.some (.dict m) →
        parse_response_data (.dict kvs) = m)
    ∧ (∀ kvs m, lookupStr kvs "row" = Option.none →
        nonEmptyListOpt (lookupStr kvs "rows") = false →
        dictOpt (lookupStr kvs "values") = Option.none →
        dictOpt (lookupStr kvs "data") = Option.none →
        lookupStr kvs "columns" = Option.some (.dict m) →
        parse_response_data (.dict kvs) = m)
    ∧ (∀ kvs, lookupStr kvs "row" = Option.none →
        nonEmptyListOpt (lookupStr kvs "rows") = false →
        dictOpt (lookupStr kvs "values") = Option.none →
        dictOpt (lookupStr kvs "data") = Option.none →
        dictOpt (lookupStr kvs "columns") = Option.none →
        parse_response_data (.dict kvs) = kvs) := by
  have hrowsNe : ∀ (kvs : List (String × PyVal)) (v : PyVal) (vs : List PyVal),
      nonEmptyListOpt (lookupStr kvs "rows") = false →
      lookupStr kvs "rows" = Option.some (.list (v :: vs)) → False := by
    intro kvs v vs hf he
    rw [he] at hf
    simp [nonEmptyListOpt] at hf
  have hdictNe : ∀ (o : Option PyVal) (m : List (String × PyVal)),
      dictOpt o = Option.none → o = Option.some (.dict m) → False := by
    intro o m hf he
    rw [he] at hf
    simp [dictOpt] at hf
  refine ⟨?_, ?_, ?_, ?_, ?_, ?_⟩
  · intro kvs r h
    rw [parse_response_data]
    split
    · rename_i r2 heq
      rw [h] at heq
      cases heq
      rfl
    · rename_i heq
      rw [h] at heq
      cases heq
  · intro kvs v vs h1 h2
    rw [parse_response_data]
    split
    · rename_i r2 heq
      rw [h1] at heq
      cases heq
    · split
      · rename_i v2 vs2 heq
        rw [h2] at heq
        cases heq
        rfl
      · rename_i hne
        exact absurd h2 (hne v vs)
  · intro kvs m h1 h2 h3
    rw [parse_response_data]
    split
    · rename_i r2 heq
      rw [h1] at heq
      cases heq
    · split
      · rename_i v2 vs2 heq
        exact absurd (hrowsNe kvs v2 vs2 h2 heq) id
      · split
        · rename_i m2 heq
          rw [h3] at heq
          cases heq
          rfl
        · rename_i hne
          exact absurd h3 (hne m)
  · intro kvs m h1 h2 h3 h4
    rw [parse_response_data]
    split
    · rename_i r2 heq
      rw [h1] at heq
      cases heq
    · split
      · rename_i v2 vs2 heq
        exact absurd (hrowsNe kvs v2 vs2 h2 heq) id
      · split
        · rename_i m2 heq
          exact absurd (hdictNe _ m2 h3 heq) id
        · split
          · rename_i m2 heq
            rw [h4] at heq
            cases heq
            rfl
          · rename_i hne
            exact absurd h4 (hne m)
  · intro kvs m h1 h2 h3 h4 h5
    rw [parse_response_data]
    split
    · rename_i r2 heq
      rw [h1] at heq
      cases heq
    · split
      · rename_i v2 vs2 heq
        exact absurd (hrowsNe kvs v2 vs2 h2 heq) id
      · split
        · rename_i m2 heq
          exact absurd (hdictNe _ m2 h3 heq) id
        · split
          · rename_i m2 heq
            exact absurd (hdictNe _ m2 h4 heq) id
          · split
            · rename_i m2 heq
              rw [h5] at heq
              cases heq
              rfl
            · rename_i hne
              exact absurd h5 (hne m)
  · intro kvs h1 h2 h3 h4 h5
    rw [parse_response_data]
    split
    · rename_i r2 heq
      rw [h1] at heq
      cases heq
    · split
      · rename_i v2 vs2 heq
        exact absurd (hrowsNe kvs v2 vs2 h2 heq) id
      · split
        · rename_i m2 heq
          exact absurd (hdictNe _ m2 h3 heq) id
        · split
          · rename_i m2 heq
            exact absurd (hdictNe _ m2 h4 heq) id
          · split
            · rename_i m2 heq
              exact absurd (hdictNe _ m2 h5 heq) id
            · rfl

/-- C4 witness: a dict containing both `"row"` and `"rows"` resolves through
`"row"`, and a dict whose only recognized key is a dict-valued `"values"`
returns that dict. -/
theorem claim_C4_wit :
    parse_response_data (.dict [("row", .dict [("a", .str "x")]),
        ("rows", .list [.dict [("b", .str "y")]])])
      = parse_response_data (.dict [("a", .str "x")])
    ∧ parse_response_data (.dict [("values", .dict [("c", .str "z")])])
      = [("c", .str "z")] :=
  ⟨claim_C4.1 [("row", .dict [("a", .str "x")]),
      ("rows", .list [.dict [("b", .str "y")]])] (.dict [("a", .str "x")]) (by rfl),
   claim_C4.2.2.1 [("values", .dict [("c", .str "z")])] [("c", .str "z")]
     (by rfl) (by rfl) (by rfl)⟩

/-- C5: direct lookup first — when the field name is a key of the row, its
value goes through `extract_chat_completion_content` and the extraction is
returned when truthy, the default otherwise; when there is no direct hit,
the first key matching one of the case/underscore/space variants
case-insensitively is used the same way; in particular an exact hit and a
capitalized key both produce the stored string. -/
theorem claim_C5 :
    (∀ kvs fieldName d v e, lookupStr kvs fieldName = Option.some v →
        extract_chat_completion_content v = Except.ok e →
        get_field_value (.dict kvs) fieldName d
          = Except.ok (if e.truthy then e else d))
    ∧ (∀ kvs fieldName d v e, lookupStr kvs fieldName = Option.none →
        findFuzzy kvs fieldName = Option.some v →
        extract_chat_completion_content v = Except.ok e →
        get_field_value (.dict kvs) fieldName d
          = Except.ok (if e.truthy then e else d))
    ∧ (∀ key fieldName v d, lookupStr [(key, v)] fieldName = Option.none →
        altMatch fieldName key = true →
        get_field_value (.dict [(key, v)]) fieldName d = extractOr v d)
    ∧ get_field_value (.dict [("summary", .str "x")]) "summary" (.str "d")
        = Except.ok (.str "x")
    ∧ get_field_value (.dict [("Summary", .str "x")]) "summary" (.str "d")
        = Except.ok (.str "x") := by
  refine ⟨?_, ?_, ?_, ?_, ?_⟩
  · intro kvs fieldName d v e h1 h2
    rw [get_field_value, h1]
    simp [extractOr, h2]
  · intro kvs fieldName d v e h1 h2 h3
    rw [get_field_value, h1, h2]
    simp [extractOr, h3]
  · intro key fieldName v d h1 h2
    have hf : findFuzzy [(key, v)] fieldName = Option.some v := by
      simp [findFuzzy, h2]
    rw [get_field_value, h1, hf]
  · simp +decide [get_field_value, lookupStr, extractOr, extract_chat_completion_content,
      tryChoicesAttr, tryChoicesDict, PyVal.truthy]
  · simp +decide [get_field_value, lookupStr, extractOr, extract_chat_completion_content,
      tryChoicesAttr, tryChoicesDict, PyVal.truthy, findFuzzy, altMatch, altNames]

/-- C5 witness: the direct-lookup part applied to a one-entry row holding a
plain string. -/
theorem claim_C5_wit :
    get_field_value (.dict [("outputs", .str "v")]) "outputs" (.str "d")
      = Except.ok (if (PyVal.str "v").truthy then PyVal.str "v" else PyVal.str "d") :=
  claim_C5.1 [("outputs", .str "v")] "outputs" (.str "d") (.str "v") (.str "v")
    (by rfl)
    (by simp +decide [extract_chat_completion_content, tryChoicesAttr, tryChoicesDict])

theorem gfvRec_nodict (kvs : List (String × PyVal)) (fieldName : String) (d : PyVal)
    (h : (kvs.all fun p => !p.2.isDict) = true) :
    gfvRec kvs fieldName d = Except.ok d := by
  induction kvs with
  | nil => rw [gfvRec]
  | cons p rest ih =>
      obtain ⟨k, v⟩ := p
      simp only [List.all_cons, Bool.and_eq_true] at h
      obtain ⟨h1, h2⟩ := h
      cases v with
      | dict inner => simp [PyVal.isDict] at h1
      | none =>
          simp only [gfvRec]
          exact ih h2
      | str s =>
          simp only [gfvRec]
          exact ih h2
      | int n =>
          simp only [gfvRec]
          exact ih h2
      | list vs =>
          simp only [gfvRec]
          exact ih h2
      | obj attrs =>
          simp only [gfvRec]
          exact ih h2

/-- C6: when direct and fuzzy lookup both fail, `get_field_value` hands over
to the recursive-descent loop over the row's entries; a single nested
dict-valued entry whose recursive lookup yields a non-null value produces
that value; when every entry is non-dict (so every step fails) the default
comes back; and the spec's two concrete instances hold: descent finds
`"output"` one level down, and the empty row yields the default. -/
theorem claim_C6 :
    (∀ fieldName d, get_field_value (.dict []) fieldName d = Except.ok d)
    ∧ (∀ kvs fieldName d, lookupStr kvs fieldName = Option.none →
        findFuzzy kvs fieldName = Option.none →
        get_field_value (.dict kvs) fieldName d = gfvRec kvs fieldName d)
    ∧ (∀ key inner fieldName d v,
        lookupStr [(key, .dict inner)] fieldName = Option.none →
        findFuzzy [(key, .dict inner)] fieldName = Option.none →
        get_field_value (.dict inner) fieldName PyVal.none = Except.ok v →
        v ≠ PyVal.none →
        get_field_value (.dict [(key, .dict inner)]) fieldName d = Except.ok v)
    ∧ (∀ kvs fieldName d, (kvs.all fun p => !p.2.isDict) = true →
        lookupStr kvs fieldName = Option.none →
        findFuzzy kvs fieldName = Option.none →
        get_field_value (.dict kvs) fieldName d = Except.ok d)
    ∧ get_field_value (.dict [("outer", .dict [("output", .str "hi")])])
        "output" (.str "d") = Except.ok (.str "hi")
    ∧ get_field_value (.dict []) "missing" (.str "d") = Except.ok (.str "d") := by
  refine ⟨?_, ?_, ?_, ?_, ?_, ?_⟩
  · intro fieldName d
    rw [get_field_value]
    simp [lookupStr, findFuzzy, gfvRec]
  · intro kvs fieldName d h1 h2
    rw [get_field_value, h1, h2]
  · intro key inner fieldName d v h1 h2 h3 h4
    rw [get_field_value, h1, h2, gfvRec]
    simp only [h3]
    have hn : v.isNone = false := by
      cases v <;> simp [PyVal.isNone] <;> exact absurd rfl h4
    simp [hn]
  · intro kvs fieldName d h0 h1 h2
    rw [get_field_value, h1, h2]
    exact gfvRec_nodict kvs fieldName d h0
  · simp +decide [get_field_value, lookupStr, extractOr, extract_chat_completion_content,
      tryChoicesAttr, tryChoicesDict, PyVal.truthy, findFuzzy, altMatch, altNames,
      gfvRec, PyVal.isNone]
  · rw [get_field_value]
    simp [lookupStr, findFuzzy, gfvRec]

/-- C6 witness: the descent part applied to a row holding one nested dict
with the sought field, and the all-fail part applied to a row of plain
strings. -/
theorem claim_C6_wit :
    get_field_value (.dict [("outer", .dict [("answer", .str "yes")])])
      "answer" (.str "d") = Except.ok (.str "yes")
    ∧ get_field_value (.dict [("alpha", .str "a"), ("beta", .str "b")])
      "gamma" (.str "d") = Except.ok (.str "d") :=
  ⟨claim_C6.2.2.1 "outer" [("answer", .str "yes")] "answer" (.str "d") (.str "yes")
     (by rfl) (by rfl)
     (by simp +decide [get_field_value, lookupStr, extractOr,
           extract_chat_completion_content, tryChoicesAttr, tryChoicesDict,
           PyVal.truthy])
     (by simp),
   claim_C6.2.2.2.1 [("alpha", .str "a"), ("beta", .str "b")] "gamma" (.str "d")
     (by decide) (by rfl) (by rfl)⟩

theorem pyGetAttr_cases (v : PyVal) (name : String) :
    pyGetAttr v name = Except.error .attributeError
    ∨ ∃ x, pyGetAttr v name = Except.ok x := by
  cases v with
  | obj attrs =>
      cases h : lookupStr attrs name with
      | none =>
          left
          simp [pyGetAttr, h]
      | some x =>
          right
          exact ⟨x, by simp [pyGetAttr, h]⟩
  | none => exact Or.inl rfl
  | str s => exact Or.inl rfl
  | int n => exact Or.inl rfl
  | list vs => exact Or.inl rfl
  | dict kvs => exact Or.inl rfl

theorem tryChoicesAttr_safe {v : PyVal} (h : choicesSafe v = true) :
    tryChoicesAttr v = Option.none
    ∨ ∃ r, tryChoicesAttr v = Option.some (Except.ok r) := by
  cases v with
  | obj attrs =>
      simp only [choicesSafe, Bool.and_eq_true] at h
      obtain ⟨h1, _⟩ := h
      cases hc : lookupStr attrs "choices" with
      | none =>
          left
          simp [tryChoicesAttr, hc]
      | some c =>
          rw [hc] at h1
          have h1b : (!c.truthy || c.isList || c.isStr) = true := h1
          cases ht : c.truthy with
          | false =>
              left
              simp [tryChoicesAttr, hc, ht]
          | true =>
              rw [ht] at h1b
              simp only [Bool.not_true, Bool.false_or, Bool.or_eq_true] at h1b
              cases c with
              | list ls =>
                  cases ls with
                  | nil => simp [PyVal.truthy] at ht
                  | cons x xs =>
                      rcases pyGetAttr_cases x "message" with he | ⟨msg, he⟩
                      · left
                        simp [tryChoicesAttr, hc, ht, pyGetItem0, he, caughtAI]
                      · rcases pyGetAttr_cases msg "content" with he2 | ⟨content, he2⟩
                        · left
                          simp [tryChoicesAttr, hc, ht, pyGetItem0, he, he2, caughtAI]
                        · right
                          exact ⟨content,
                            by simp [tryChoicesAttr, hc, ht, pyGetItem0, he, he2]⟩
              | str s =>
                  have hse : s.isEmpty = false := by
                    simp [PyVal.truthy] at ht
                    simp [ht]
                  rcases pyGetAttr_cases (.str (s.take 1)) "message" with he | ⟨msg, he⟩
                  · left
                    simp [tryChoicesAttr, hc, ht, pyGetItem0, hse, he, caughtAI]
                  · rcases pyGetAttr_cases msg "content" with he2 | ⟨content, he2⟩
                    · left
                      simp [tryChoicesAttr, hc, ht, pyGetItem0, hse, he, he2, caughtAI]
                    · right
                      exact ⟨content,
                        by simp [tryChoicesAttr, hc, ht, pyGetItem0, hse, he, he2]⟩
              | none => simp [PyVal.isList, PyVal.isStr] at h1b
              | int n => simp [PyVal.isList, PyVal.isStr] at h1b
              | dict kvs2 => simp [PyVal.isList, PyVal.isStr] at h1b
              | obj attrs2 => simp [PyVal.isList, PyVal.isStr] at h1b
  | none => exact Or.inl rfl
  | str s => exact Or.inl rfl
  | int n => exact Or.inl rfl
  | list vs => exact Or.inl rfl
  | dict kvs => exact Or.inl rfl

theorem extract_safe {v : PyVal} (h : choicesSafe v = true) :
    ∃ r, extract_chat_completion_content v = Except.ok r := by
  rcases tryChoicesAttr_safe h with ha | ⟨r, ha⟩
  · have hd2 : tryChoicesDict v = Option.none
        ∨ ∃ w, tryChoicesDict v = Option.some (Except.ok w) := by
      cases v with
      | dict kvs =>
          have hdo : dictChoicesOk kvs = true := by
            simp only [choicesSafe, Bool.and_eq_true] at h
            exact h.1
          exact tryChoicesDict_safe hdo
      | none => exact Or.inl rfl
      | str s => exact Or.inl rfl
      | int n => exact Or.inl rfl
      | list vs => exact Or.inl rfl
      | obj attrs => exact Or.inl rfl
    rcases hd2 with hd | ⟨w, hd⟩
    · cases v with
      | str s =>
          exact ⟨if s.isEmpty then PyVal.none else .str s,
            by simp [extract_chat_completion_content, ha, hd]⟩
      | none =>
          exact ⟨PyVal.none, by simp [extract_chat_completion_content, ha, hd]⟩
      | int n =>
          exact ⟨.str (pyStr (.int n)),
            by simp [extract_chat_completion_content, ha, hd]⟩
      | list vs =>
          exact ⟨.str (pyStr (.list vs)),
            by simp [extract_chat_completion_content, ha, hd]⟩
      | dict kvs =>
          exact ⟨.str (pyStr (.dict kvs)),
            by simp [extract_chat_completion_content, ha, hd]⟩
      | obj attrs =>
          exact ⟨.str (pyStr (.obj attrs)),
            by simp [extract_chat_completion_content, ha, hd]⟩
    · exact ⟨w, by simp [extract_chat_completion_content, ha, hd]⟩
  · exact ⟨r, by simp [extract_chat_completion_content, ha]⟩

theorem choicesSafeKV_lookup {kvs : List (String × PyVal)} {k : String} {v : PyVal}
    (h : choicesSafeKV kvs = true) (hl : lookupStr kvs k = Option.some v) :
    choicesSafe v = true := by
  induction kvs with
  | nil => simp [lookupStr] at hl
  | cons p rest ih =>
      obtain ⟨a, b⟩ := p
      simp only [choicesSafeKV, Bool.and_eq_true] at h
      obtain ⟨hb, hrest⟩ := h
      by_cases hk : a = k
      · simp [lookupStr, hk] at hl
        subst hl
        exact hb
      · simp [lookupStr, hk] at hl
        exact ih hrest hl

theorem choicesSafeKV_findFuzzy {kvs : List (String × PyVal)} {fieldName : String}
    {v : PyVal} (h : choicesSafeKV kvs = true)
    (hf : findFuzzy kvs fieldName = Option.some v) : choicesSafe v = true := by
  induction kvs with
  | nil => simp [findFuzzy] at hf
  | cons p rest ih =>
      obtain ⟨a, b⟩ := p
      simp only [choicesSafeKV, Bool.and_eq_true] at h
      obtain ⟨hb, hrest⟩ := h
      by_cases hm : altMatch fieldName a = true
      · simp [findFuzzy, hm] at hf
        subst hf
        exact hb
      · simp [findFuzzy, hm] at hf
        exact ih hrest hf

theorem gfv_safe_aux (n : Nat) :
    (∀ data fieldName d, 2 * data.size ≤ n → choicesSafe data = true →
        ∃ r, get_field_value data fieldName d = Except.ok r)
    ∧ (∀ kvs fieldName d, 2 * sizeKV kvs + 1 ≤ n → choicesSafeKV kvs = true →
        ∃ r, gfvRec kvs fieldName d = Except.ok r) := by
  induction n with
  | zero =>
      constructor
      · intro data _ _ hle _
        have := PyVal.size_pos data
        omega
      · intro kvs _ _ hle _
        omega
  | succ n ih =>
      obtain ⟨ih1, ih2⟩ := ih
      constructor
      · intro data fieldName d hle hsafe
        cases data with
        | dict kvs =>
            cases hl : lookupStr kvs fieldName with
            | some v =>
                have hkv : choicesSafeKV kvs = true := by
                  simp only [choicesSafe, Bool.and_eq_true] at hsafe
                  exact hsafe.2
                obtain ⟨e, he⟩ := extract_safe (choicesSafeKV_lookup hkv hl)
                refine ⟨if e.truthy then e else d, ?_⟩
                rw [get_field_value, hl]
                simp [extractOr, he]
            | none =>
                cases hf : findFuzzy kvs fieldName with
                | some v =>
                    have hkv : choicesSafeKV kvs = true := by
                      simp only [choicesSafe, Bool.and_eq_true] at hsafe
                      exact hsafe.2
                    obtain ⟨e, he⟩ := extract_safe (choicesSafeKV_findFuzzy hkv hf)
                    refine ⟨if e.truthy then e else d, ?_⟩
                    rw [get_field_value, hl, hf]
                    simp [extractOr, he]
                | none =>
                    have hkv : choicesSafeKV kvs = true := by
                      simp only [choicesSafe, Bool.and_eq_true] at hsafe
                      exact hsafe.2
                    have hsz : 2 * sizeKV kvs + 1 ≤ n := by
                      simp [PyVal.size] at hle
                      omega
                    obtain ⟨r, hr⟩ := ih2 kvs fieldName d hsz hkv
                    refine ⟨r, ?_⟩
                    rw [get_field_value, hl, hf]
                    exact hr
        | none => exact ⟨d, by simp [get_field_value]⟩
        | str s => exact ⟨d, by simp [get_field_value]⟩
        | int m => exact ⟨d, by simp [get_field_value]⟩
        | list vs => exact ⟨d, by simp [get_field_value]⟩
        | obj attrs => exact ⟨d, by simp [get_field_value]⟩
      · intro kvs fieldName d hle hsafe
        cases kvs with
        | nil => exact ⟨d, by rw [gfvRec]⟩
        | cons p rest =>
            obtain ⟨k, v⟩ := p
            simp only [choicesSafeKV, Bool.and_eq_true] at hsafe
            obtain ⟨hv, hrest⟩ := hsafe
            have hrsz : 2 * sizeKV rest + 1 ≤ n := by
              simp only [sizeKV] at hle
              have := PyVal.size_pos v
              omega
            cases v with
            | dict inner =>
                have hdsz : 2 * PyVal.size (.dict inner) ≤ n := by
                  simp only [sizeKV, PyVal.size] at hle ⊢
                  omega
                obtain ⟨r, hr⟩ := ih1 (.dict inner) fieldName PyVal.none hdsz hv
                cases hn : r.isNone with
                | true =>
                    obtain ⟨r2, hr2⟩ := ih2 rest fieldName d hrsz hrest
                    refine ⟨r2, ?_⟩
                    rw [gfvRec]
                    simp [hr, hn, hr2]
                | false =>
                    refine ⟨r, ?_⟩
                    rw [gfvRec]
                    simp [hr, hn]
            | none =>
                obtain ⟨r2, hr2⟩ := ih2 rest fieldName d hrsz hrest
                exact ⟨r2, by simp only [gfvRec]; exact hr2⟩
            | str s =>
                obtain ⟨r2, hr2⟩ := ih2 rest fieldName d hrsz hrest
                exact ⟨r2, by simp only [gfvRec]; exact hr2⟩
            | int m =>
                obtain ⟨r2, hr2⟩ := ih2 rest fieldName d hrsz hrest
                exact ⟨r2, by simp only [gfvRec]; exact hr2⟩
            | list vs =>
                obtain ⟨r2, hr2⟩ := ih2 rest fieldName d hrsz hrest
                exact ⟨r2, by simp only [gfvRec]; exact hr2⟩
            | obj attrs =>
                obtain ⟨r2, hr2⟩ := ih2 rest fieldName d hrsz hrest
                exact ⟨r2, by simp only [gfvRec]; exact hr2⟩

/-- C7 counterexample: `get_field_value` propagates the uncaught `TypeError`
raised by `extract_chat_completion_content` on a field value that is an
object whose `choices` attribute is the truthy integer `1`, so the function
can raise. -/
theorem claim_C7_cex :
    get_field_value (.dict [("f", .obj [("choices", .int 1)])]) "f" (.str "d")
      = Except.error .typeError := by
  rw [get_field_value]
  simp +decide [lookupStr, extractOr, extract_chat_completion_content,
    tryChoicesAttr, PyVal.truthy, pyGetItem0, caughtAI]

/-- C7 (amended): `get_field_value` terminates on every input, and it never
raises — absence of the field being signalled only by returning the default
— provided the row is `choicesSafe`: no object reachable inside it carries
a `choices` attribute that is truthy yet neither a list nor a string, and
no dict reachable inside it carries a first choice whose `"message"` value
is an object exposing a non-callable `get` attribute; on either shape the
wrong-type `TypeError`/`KeyError` of the extraction escapes (see the
counterexample). -/
theorem claim_C7 (data : PyVal) (fieldName : String) (d : PyVal)
    (h : choicesSafe data = true) :
    ∃ r, get_field_value data fieldName d = Except.ok r :=
  (gfv_safe_aux (2 * data.size)).1 data fieldName d (Nat.le_refl _) h

/-- C7 witness: a nested row with plain strings and a well-shaped chat
completion value is choices-safe, so the lookup returns normally. -/
theorem claim_C7_wit :
    ∃ r, get_field_value
        (.dict [("a", .dict [("b", .obj [("choices", .list [.str "x"])])])])
        "b" (.str "d") = Except.ok r :=
  claim_C7 (.dict [("a", .dict [("b", .obj [("choices", .list [.str "x"])])])])
    "b" (.str "d") (by rfl)
